import Mathlib

/-!
Verification development for the chip8-rs emulator core.

Shallow embedding of `src/state.rs`, `src/constants.rs` and `src/decoder.rs`.
Machine bytes (`u8`) are modelled as `Nat` with explicit `% 256` where the
source wraps; `usize` values (`pc`, `i`) are `Nat` (64-bit overflow is out of
reach for the magnitudes involved).  Rust fixed arrays (`[u8; 4096]`,
`[u8; 16]`, `[bool; 2048]`) are modelled as total functions `Nat → _` with an
explicit bound check wherever the source indexing could panic; a Rust panic
(index out of bounds, `todo!()`, slice-range error) is the `panic`/`none`
outcome.  The `stack: VecDeque<usize>` with `push_back`/`pop_back` is a `List`
with append at the back and `getLast?`/`dropLast`.
The field `key_pressed_at: SystemTime` carries real wall-clock time and is
not used by the decoder; it is omitted from the model.
-/

namespace Chip8

/-- `constants::MEMORY_SIZE` (4KB). -/
def MEMORY_SIZE : Nat := 4096

/-- `constants::WIDTH` (screen width in pixels). -/
def WIDTH : Nat := 64

/-- `constants::HEIGHT` (screen height in pixels). -/
def HEIGHT : Nat := 32

/-- `constants::CHARACTER_SPRITE_OFFSET` (character sprites start at 0x000). -/
def CHARACTER_SPRITE_OFFSET : Nat := 0

/-- Pointwise update of a function-modelled array: `arr[idx] = val`. -/
def updf (f : Nat → Nat) (idx val : Nat) : Nat → Nat :=
  fun j => if j = idx then val else f j

/-- The `State` struct of `src/state.rs` (the `key_pressed_at` wall-clock
field is omitted, see the module comment). -/
structure State where
  screen : Nat → Bool
  delay_timer : Nat
  sound_timer : Nat
  i : Nat
  memory : Nat → Nat
  pc : Nat
  stack : List Nat
  v : Nat → Nat
  key_pressed : Option Nat
  waiting_for_keypress : Option Nat

/-- Result of one `decode_and_execute` call.  `ok ec s` is
`Ok(ec)` with the mutated state `s` (`ec = some x` is the FXFF halt code);
`err msg s` is `Err(msg)` with the state as mutated up to the error point
(the Rust state is `&mut`, so earlier mutations persist); `panic` is a Rust
panic (`todo!()` or an out-of-bounds index). -/
inductive Outcome where
  | panic : Outcome
  | err : String → State → Outcome
  | ok : Option Nat → State → Outcome

/-- The 16-bit big-endian instruction at `pc`:
`((memory[pc] as u16) << 8) | memory[pc + 1]`. -/
def instrOf (s : State) : Nat :=
  s.memory s.pc * 256 + s.memory (s.pc + 1)

/-- Fetch: read the two instruction bytes (panics when `pc + 1` is past the
4096-byte array), then `pc += 2; pc &= 0xFFF`. -/
def fetch (s : State) : Option (Nat × State) :=
  if s.pc + 1 < MEMORY_SIZE then
    some (instrOf s, { s with pc := (s.pc + 2) % 4096 })
  else
    none

/-- `state.memory[idx] = val`, panicking (`none`) when `idx` is out of
bounds of the `[u8; 4096]` array. -/
def memWrite (s : State) (idx val : Nat) : Option State :=
  if idx < MEMORY_SIZE then some { s with memory := updf s.memory idx val }
  else none

/-- The `bcd` helper of `src/decoder.rs`: hundreds, tens and ones digits. -/
def bcd (value : Nat) : Nat × Nat × Nat :=
  (value / 100, value % 100 / 10, value % 10)

/-- Sum of the 16 registers, `state.v.iter().sum::<u8>()`, modelled with
wrapping (release-build) `u8` addition: reducing mod 256 at the end equals
reducing after every addition. -/
def regSum (s : State) : Nat :=
  ((List.range 16).map s.v).sum % 256

/-- The FX55 loop body of `src/decoder.rs`:
`for i in 0..=x { state.memory[state.i + i] = state.v[i]; state.i += x + 1; }`.
`k` is the loop counter, `fuel` the remaining iteration count (`x + 1` at
entry); `none` is the panic on an out-of-bounds store. -/
def fx55_loop (x k fuel : Nat) (s : State) : Option State :=
  match fuel with
  | 0 => some s
  | fuel' + 1 =>
    if s.i + k < MEMORY_SIZE then
      fx55_loop x (k + 1) fuel'
        { s with memory := updf s.memory (s.i + k) (s.v k), i := s.i + (x + 1) }
    else
      none

/-- The FX65 loop body of `src/decoder.rs`:
`for i in 0..=x { state.v[i] = state.memory[state.i + i]; state.i += x + 1; }`. -/
def fx65_loop (x k fuel : Nat) (s : State) : Option State :=
  match fuel with
  | 0 => some s
  | fuel' + 1 =>
    if s.i + k < MEMORY_SIZE then
      fx65_loop x (k + 1) fuel'
        { s with v := updf s.v k (s.memory (s.i + k)), i := s.i + (x + 1) }
    else
      none

/-- Dispatch on the fetched instruction, mirroring the `match` in
`decode_and_execute` of `src/decoder.rs` arm by arm.  `s` is the state after
the fetch advance.  The top-level `match instruction & 0xF000` is modelled as
a chain on `instruction / 4096`; the 4-bit fields are `instruction / 256 % 16`
(X), `instruction / 16 % 16` (Y), `instruction % 16` (N), and the immediates
`instruction % 256` (NN) and `instruction % 4096` (NNN). -/
def execInstr (instruction : Nat) (s : State) : Outcome :=
  let t := instruction / 4096
  if t = 0x0 then
    -- 0x0000: no operation
    if instruction % 4096 = 0x000 then Outcome.ok none s
    -- 0x00E0: clear the display
    else if instruction % 4096 = 0x0E0 then
      Outcome.ok none { s with screen := fun _ => false }
    -- 0x00EE: return from subroutine; stack.pop_back().ok_or(..)?
    else if instruction % 4096 = 0x0EE then
      match s.stack.getLast? with
      | some addr => Outcome.ok none { s with pc := addr, stack := s.stack.dropLast }
      | none => Outcome.err "Stack underflow on RET" s
    -- 0x0NNN: ignored (warn! only)
    else Outcome.ok none s
  else if t = 0x1 then
    -- 0x1NNN: jump to NNN
    Outcome.ok none { s with pc := instruction % 4096 }
  else if t = 0x2 then
    -- 0x2NNN: call NNN (the stack-overflow check is commented out in the
    -- source, so the push is unconditional)
    Outcome.ok none
      { s with stack := s.stack ++ [s.pc], pc := instruction % 4096 }
  else if t = 0x3 then
    -- 0x3XNN: skip if VX == NN
    let x := instruction / 256 % 16
    let nn := instruction % 256
    if s.v x = nn then Outcome.ok none { s with pc := s.pc + 2 }
    else Outcome.ok none s
  else if t = 0x4 then
    -- 0x4XNN: skip if VX != NN
    let x := instruction / 256 % 16
    let nn := instruction % 256
    if s.v x ≠ nn then Outcome.ok none { s with pc := s.pc + 2 }
    else Outcome.ok none s
  else if t = 0x5 then
    -- 0x5XY0: skip if VX == VY (the source does not test the low nibble)
    let x := instruction / 256 % 16
    let y := instruction / 16 % 16
    if s.v x = s.v y then Outcome.ok none { s with pc := s.pc + 2 }
    else Outcome.ok none s
  else if t = 0x6 then
    -- 0x6XNN: VX = NN
    let x := instruction / 256 % 16
    let nn := instruction % 256
    Outcome.ok none { s with v := updf s.v x nn }
  else if t = 0x7 then
    -- 0x7XNN: VX = VX.wrapping_add(NN)
    let x := instruction / 256 % 16
    let nn := instruction % 256
    Outcome.ok none { s with v := updf s.v x ((s.v x + nn) % 256) }
  else if t = 0x8 then
    let x := instruction / 256 % 16
    let y := instruction / 16 % 16
    let l := instruction % 16
    if l = 0x0 then
      -- 0x8XY0: VX = VY
      Outcome.ok none { s with v := updf s.v x (s.v y) }
    else if l = 0x1 then
      -- 0x8XY1: VX |= VY
      Outcome.ok none { s with v := updf s.v x (s.v x ||| s.v y) }
    else if l = 0x2 then
      -- 0x8XY2: VX &= VY
      Outcome.ok none { s with v := updf s.v x (s.v x &&& s.v y) }
    else if l = 0x3 then
      -- 0x8XY3: VX ^= VY
      Outcome.ok none { s with v := updf s.v x (s.v x ^^^ s.v y) }
    else if l = 0x4 then
      -- 0x8XY4: (result, overflow) = VX.overflowing_add(VY);
      -- v[x] = result; v[0xF] = flag  (writes in this order)
      let result := (s.v x + s.v y) % 256
      let flag := if 256 ≤ s.v x + s.v y then 1 else 0
      Outcome.ok none { s with v := updf (updf s.v x result) 0xF flag }
    else if l = 0x5 then
      -- 0x8XY5: (result, borrow) = VX.overflowing_sub(VY);
      -- v[x] = result; v[0xF] = if borrow then 0 else 1
      let result := (256 + s.v x - s.v y) % 256
      let flag := if s.v x < s.v y then 0 else 1
      Outcome.ok none { s with v := updf (updf s.v x result) 0xF flag }
    else if l = 0x6 then
      -- 0x8XY6: v[0xF] = v[y] & 1; then v[x] = v[y] >> 1
      -- (the second read of v[y] sees the first write when y = 0xF)
      let v1 := updf s.v 0xF (s.v y % 2)
      Outcome.ok none { s with v := updf v1 x (v1 y / 2) }
    else if l = 0x7 then
      -- 0x8XY7: (result, borrow) = VY.overflowing_sub(VX);
      -- v[x] = result; v[0xF] = if borrow then 0 else 1
      let result := (256 + s.v y - s.v x) % 256
      let flag := if s.v y < s.v x then 0 else 1
      Outcome.ok none { s with v := updf (updf s.v x result) 0xF flag }
    else if l = 0xE then
      -- 0x8XYE: v[0xF] = (v[y] & 0x80) >> 7; then v[x] = v[y] << 1 (u8)
      let v1 := updf s.v 0xF (s.v y / 128 % 2)
      Outcome.ok none { s with v := updf v1 x (v1 y * 2 % 256) }
    else
      -- unknown_op
      Outcome.ok none s
  else if t = 0x9 then
    -- 0x9XY0: skip if VX != VY
    let x := instruction / 256 % 16
    let y := instruction / 16 % 16
    if instruction % 16 = 0x0 then
      if s.v x ≠ s.v y then Outcome.ok none { s with pc := s.pc + 2 }
      else Outcome.ok none s
    else
      Outcome.ok none s
  else if t = 0xA then
    -- 0xANNN: I = NNN
    Outcome.ok none { s with i := instruction % 4096 }
  else if t = 0xB then
    -- 0xBNNN: PC = NNN + V0 (no 12-bit mask in the source)
    Outcome.ok none { s with pc := instruction % 4096 + s.v 0 }
  else if t = 0xC then
    -- 0xCXNN: VX = rand_byte & NN, rand_byte the placeholder
    -- ((pc + i + v.iter().sum::<u8>() as usize) & 0xFF) as u8
    let x := instruction / 256 % 16
    let nn := instruction % 256
    let rand_byte := (s.pc + s.i + regSum s) % 256
    Outcome.ok none { s with v := updf s.v x (rand_byte &&& nn) }
  else if t = 0xD then
    -- 0xDXYN: draw_sprite is todo!() in the source and panics
    Outcome.panic
  else if t = 0xE then
    let x := instruction / 256 % 16
    if instruction % 256 = 0x9E then
      -- 0xEX9E: skip if key_pressed == Some(VX); then key_pressed = None
      if s.key_pressed = some (s.v x) then
        Outcome.ok none { s with pc := s.pc + 2, key_pressed := none }
      else
        Outcome.ok none { s with key_pressed := none }
    else if instruction % 256 = 0xA1 then
      -- 0xEXA1: skip if key_pressed != Some(VX); then key_pressed = None
      if s.key_pressed ≠ some (s.v x) then
        Outcome.ok none { s with pc := s.pc + 2, key_pressed := none }
      else
        Outcome.ok none { s with key_pressed := none }
    else
      Outcome.ok none s
  else if t = 0xF then
    let x := instruction / 256 % 16
    if instruction % 256 = 0x07 then
      -- 0xFX07: VX = delay_timer
      Outcome.ok none { s with v := updf s.v x s.delay_timer }
    else if instruction % 256 = 0x0A then
      -- 0xFX0A: waiting_for_keypress = Some(x)
      Outcome.ok none { s with waiting_for_keypress := some x }
    else if instruction % 256 = 0x15 then
      -- 0xFX15: delay_timer = VX
      Outcome.ok none { s with delay_timer := s.v x }
    else if instruction % 256 = 0x18 then
      -- 0xFX18: sound_timer = VX
      Outcome.ok none { s with sound_timer := s.v x }
    else if instruction % 256 = 0x1E then
      -- 0xFX1E: I = I.wrapping_add(VX) & 0xFFF
      Outcome.ok none { s with i := (s.i + s.v x) % 4096 }
    else if instruction % 256 = 0x29 then
      -- 0xFX29: I = CHARACTER_SPRITE_OFFSET + (VX & 0xF) * 5
      Outcome.ok none { s with i := CHARACTER_SPRITE_OFFSET + s.v x % 16 * 5 }
    else if instruction % 256 = 0x33 then
      -- 0xFX33: BCD of VX at memory[I], [I+1], [I+2]
      let d := bcd (s.v x)
      match memWrite s s.i d.1 with
      | none => Outcome.panic
      | some s1 =>
        match memWrite s1 (s1.i + 1) d.2.1 with
        | none => Outcome.panic
        | some s2 =>
          match memWrite s2 (s2.i + 2) d.2.2 with
          | none => Outcome.panic
          | some s3 => Outcome.ok none s3
    else if instruction % 256 = 0x55 then
      -- 0xFX55: store V0..=VX (with the in-loop `state.i += x + 1`)
      match fx55_loop x 0 (x + 1) s with
      | some s' => Outcome.ok none s'
      | none => Outcome.panic
    else if instruction % 256 = 0x65 then
      -- 0xFX65: load V0..=VX (with the in-loop `state.i += x + 1`)
      match fx65_loop x 0 (x + 1) s with
      | some s' => Outcome.ok none s'
      | none => Outcome.panic
    else if instruction % 256 = 0xFF then
      -- 0xFXFF: halt, return Ok(Some(x))
      Outcome.ok (some x) s
    else
      Outcome.ok none s
  else
    -- wildcard arm of the source match (unknown_op)
    Outcome.ok none s

/-- `decode_and_execute` of `src/decoder.rs`: fetch (panicking when the
instruction bytes are past the end of memory), advance and mask `pc`, then
dispatch. -/
def decode_and_execute (s : State) : Outcome :=
  match fetch s with
  | none => Outcome.panic
  | some (instruction, s') => execInstr instruction s'

/-- The 16 × 5 character glyph table of `State::bootstrap_character_rom`. -/
def charmap : List (List Nat) :=
  [[0xF0, 0x90, 0x90, 0x90, 0xF0],
   [0x20, 0x60, 0x20, 0x20, 0x70],
   [0xF0, 0x10, 0xF0, 0x80, 0xF0],
   [0xF0, 0x10, 0xF0, 0x10, 0xF0],
   [0x90, 0x90, 0xF0, 0x10, 0x10],
   [0xF0, 0x80, 0xF0, 0x10, 0xF0],
   [0xF0, 0x80, 0xF0, 0x90, 0xF0],
   [0xF0, 0x10, 0x20, 0x40, 0x40],
   [0xF0, 0x90, 0xF0, 0x90, 0xF0],
   [0xF0, 0x90, 0xF0, 0x10, 0xF0],
   [0xF0, 0x90, 0xF0, 0x90, 0x90],
   [0xE0, 0x90, 0xE0, 0x90, 0xE0],
   [0xF0, 0x80, 0x80, 0x80, 0xF0],
   [0xE0, 0x90, 0x90, 0x90, 0xE0],
   [0xF0, 0x80, 0xF0, 0x80, 0xF0],
   [0xF0, 0x80, 0xF0, 0x80, 0x80]]

/-- Write a list of bytes at consecutive addresses starting at `start`
(the inner loop of `bootstrap_character_rom`). -/
def writeBytes (mem : Nat → Nat) (start : Nat) : List Nat → (Nat → Nat)
  | [] => mem
  | b :: rest => writeBytes (updf mem start b) (start + 1) rest

/-- `State::bootstrap_character_rom`: the flattened glyph table is written
at `CHARACTER_SPRITE_OFFSET + 0 .. + 79`. -/
def bootstrap_character_rom (mem : Nat → Nat) : Nat → Nat :=
  writeBytes mem CHARACTER_SPRITE_OFFSET charmap.flatten

/-- One of the `State::new` fill loops:
`for i in (start..).step_by(2).take(count) { memory[i] = 0xFF; memory[i+1] = 0xFF; }`.
`count` is the iteration count of the corresponding Rust range. -/
def fillHalt (mem : Nat → Nat) (start count : Nat) : Nat → Nat :=
  match count with
  | 0 => mem
  | c + 1 => fillHalt (updf (updf mem start 0xFF) (start + 1) 0xFF) (start + 2) c

/-- `State::new` of `src/state.rs`: zero-init, bootstrap the character ROM,
fill `(0x040..0x200).step_by(2)` (224 iterations) with 0xFF halt pairs, put
the jump byte 0x12 at 0xE9E, fill `(0xEA0..=0xFFF).step_by(2)`
(176 iterations) with 0xFF halt pairs. -/
def State.new : State :=
  let st : State :=
    { screen := fun _ => false
      delay_timer := 0
      sound_timer := 0
      i := 0
      memory := fun _ => 0
      pc := 0x200
      stack := []
      v := fun _ => 0
      key_pressed := none
      waiting_for_keypress := none }
  let mem1 := bootstrap_character_rom st.memory
  let mem2 := fillHalt mem1 0x040 224
  let mem3 := updf mem2 0xE9E 0x12
  let mem4 := fillHalt mem3 0xEA0 176
  { st with memory := mem4 }

/-- `TryFrom<&PathBuf> for State` of `src/state.rs`, with the file contents
abstracted to the list of ROM bytes (the `File::open`/`read` I/O is external
to the core).  `buffer` is the 4096-byte zero-initialised read buffer, `n`
the number of bytes read (a full `read` of `min rom.length 4096` bytes).
The source then runs
`state.memory[0x200..n].copy_from_slice(&buffer[0x200..n])`;
a Rust slice `[0x200..n]` with `n < 0x200` is an invalid range and panics
(`none`). -/
def state_try_from (rom : List Nat) : Option State :=
  let st := State.new
  let n := min rom.length MEMORY_SIZE
  let buffer : Nat → Nat := fun j => if j < n then rom.getD j 0 else 0
  if 0x200 ≤ n then
    some { st with
           memory := fun j => if 0x200 ≤ j ∧ j < n then buffer j else st.memory j }
  else
    none

/-- `true` exactly when the outcome is an `Err(..)`. -/
def Outcome.isErr : Outcome → Bool
  | .err _ _ => true
  | _ => false

/-- The program counter of the resulting state, `none` on panic. -/
def Outcome.pcOf : Outcome → Option Nat
  | .ok _ s => some s.pc
  | .err _ s => some s.pc
  | .panic => none

/-- The call-stack depth of the resulting state, `none` on panic. -/
def Outcome.stackLenOf : Outcome → Option Nat
  | .ok _ s => some s.stack.length
  | .err _ s => some s.stack.length
  | .panic => none

/-- The byte at address `a` of the resulting state, `none` on panic. -/
def Outcome.memAt : Outcome → Nat → Option Nat
  | .ok _ s, a => some (s.memory a)
  | .err _ s, a => some (s.memory a)
  | .panic, _ => none

/-- The register `VX` of the resulting state, `none` on panic. -/
def Outcome.vAt : Outcome → Nat → Option Nat
  | .ok _ s, x => some (s.v x)
  | .err _ s, x => some (s.v x)
  | .panic, _ => none

/-- The spec invariant on a single outcome: when the call did not panic, the
resulting `PC` and `I` lie in `[0, 0xFFF]`. -/
def invOut : Outcome → Prop
  | .panic => True
  | .err _ s => s.pc ≤ 0xFFF ∧ s.i ≤ 0xFFF
  | .ok _ s => s.pc ≤ 0xFFF ∧ s.i ≤ 0xFFF

/-- An all-zero machine state used as the base of the concrete test states. -/
def baseState : State :=
  { screen := fun _ => false
    delay_timer := 0
    sound_timer := 0
    i := 0
    memory := fun _ => 0
    pc := 0x200
    stack := []
    v := fun _ => 0
    key_pressed := none
    waiting_for_keypress := none }

/-! Concrete states used by the counterexamples, code-bug evaluations and
witnesses. -/

/-- A state whose next instruction is `0xD000` (DXYN with X=Y=N=0). -/
def dxynState : State :=
  { baseState with memory := fun j => if j = 0x200 then 0xD0 else 0 }

/-- A state with twelve return addresses on the call stack whose next
instruction is `0x2222` (CALL 0x222). -/
def fullStackCallState : State :=
  { baseState with
    stack := [0x210, 0x212, 0x214, 0x216, 0x218, 0x21A,
              0x21C, 0x21E, 0x220, 0x222, 0x224, 0x226]
    memory := fun j => if j = 0x200 then 0x22 else if j = 0x201 then 0x22 else 0 }

/-- A state whose next instruction is `0xBFFF` (JP V0 + 0xFFF) with
`V0 = 0xFF`. -/
def bnnnState : State :=
  { baseState with
    memory := fun j => if j = 0x200 then 0xBF else if j = 0x201 then 0xFF else 0
    v := fun j => if j = 0 then 0xFF else 0 }

/-- A state whose next instruction is `0xF155` (store V0..V1) with
`I = 0x300`, `V0 = 0xAA`, `V1 = 0xBB`. -/
def fx55State : State :=
  { baseState with
    i := 0x300
    memory := fun j => if j = 0x200 then 0xF1 else if j = 0x201 then 0x55 else 0
    v := fun j => if j = 0 then 0xAA else if j = 1 then 0xBB else 0 }

/-- A state for the C6 witness: `0xF165` (load V0..V1) with `I = 0x300`,
`memory[0x300] = 0x11`, `memory[0x303] = 0x22`. -/
def fx65State : State :=
  { baseState with
    i := 0x300
    memory := fun j =>
      if j = 0x200 then 0xF1 else if j = 0x201 then 0x65 else
      if j = 0x300 then 0x11 else if j = 0x303 then 0x22 else 0 }

/-- A state whose next instruction is `0x2300` (CALL 0x300) and whose
memory holds `0x00EE` (RET) at 0x300. -/
def callRetState : State :=
  { baseState with
    memory := fun j =>
      if j = 0x200 then 0x23 else if j = 0x201 then 0x00 else
      if j = 0x300 then 0x00 else if j = 0x301 then 0xEE else 0 }

/-- A state with an empty call stack whose next instruction is `0x00EE`. -/
def retUnderflowState : State :=
  { baseState with
    memory := fun j => if j = 0x200 then 0x00 else if j = 0x201 then 0xEE else 0 }

/-- A state whose next instruction is `0xC35A` (RND V3 masked by 0x5A),
with nonzero registers and `I`. -/
def rndState : State :=
  { baseState with
    i := 7
    memory := fun j => if j = 0x200 then 0xC3 else if j = 0x201 then 0x5A else 0
    v := fun j => j }

/-- A state whose next instruction is `0x8F14` (ADD VF, V1 with X = 0xF),
with `VF = 0xFF` and `V1 = 0x03`. -/
def addToFlagState : State :=
  { baseState with
    memory := fun j => if j = 0x200 then 0x8F else if j = 0x201 then 0x14 else 0
    v := fun j => if j = 0xF then 0xFF else if j = 1 then 0x03 else 0 }

/-- A state whose next instruction is the no-op `0x0000`. -/
def nopState : State := baseState

/-!  Bridge lemmas: the fetch step and each dispatch arm in isolation. -/

theorem list_getLast?_mem : ∀ {l : List Nat} {a : Nat}, l.getLast? = some a → a ∈ l
  | [b], a, h => by
    simp [List.getLast?] at h
    simp [h]
  | b :: c :: t, a, h => by
    rw [List.getLast?_cons_cons] at h
    exact List.mem_cons_of_mem b (list_getLast?_mem h)

/-- `decode_and_execute` is the dispatcher applied to the fetched
instruction and the advanced state, whenever the fetch does not panic. -/
theorem decode_eq (s : State) (h : s.pc + 1 < 4096) :
    decode_and_execute s = execInstr (instrOf s) { s with pc := (s.pc + 2) % 4096 } := by
  simp [decode_and_execute, fetch, MEMORY_SIZE, h]

/-- The `0x00EE` (RET) arm. -/
theorem execInstr_ret (s : State) :
    execInstr 0xEE s =
      match s.stack.getLast? with
      | some addr => Outcome.ok none { s with pc := addr, stack := s.stack.dropLast }
      | none => Outcome.err "Stack underflow on RET" s := rfl

/-- The `0x2NNN` (CALL) arm: the push is unconditional because the source
has its depth check commented out. -/
theorem execInstr_call (instr : Nat) (s : State) (h : instr / 4096 = 2) :
    execInstr instr s =
      Outcome.ok none { s with stack := s.stack ++ [s.pc], pc := instr % 4096 } := by
  simp only [execInstr, h]
  norm_num

/-! PC/I-invariant lemmas for the individual dispatch arms. -/

theorem inv_arm0 (instr : Nat) (s : State) (h : instr / 4096 = 0)
    (hpc : s.pc ≤ 0xFFF) (hi : s.i ≤ 0xFFF)
    (hstk : ∀ a ∈ s.stack, a ≤ 0xFFF) :
    invOut (execInstr instr s) := by
  simp only [execInstr, h]
  norm_num
  by_cases h0 : instr % 4096 = 0
  · simp [h0, invOut, hpc, hi]
  by_cases hE0 : instr % 4096 = 0xE0
  · simp [h0, hE0, invOut, hpc, hi]
  by_cases hEE : instr % 4096 = 0xEE
  · simp only [h0, hE0, hEE, if_false, if_true, if_neg, if_pos]
    rcases hL : s.stack.getLast? with _ | addr
    · simp [invOut, hpc, hi]
    · simp [invOut, hi]
      exact hstk addr (list_getLast?_mem hL)
  · simp [h0, hE0, hEE, invOut, hpc, hi]

set_option maxHeartbeats 1600000 in
theorem inv_arm8 (instr : Nat) (s : State) (h : instr / 4096 = 8)
    (hpc : s.pc ≤ 0xFFF) (hi : s.i ≤ 0xFFF) :
    invOut (execInstr instr s) := by
  simp only [execInstr, h]
  norm_num
  split_ifs <;> simp [invOut, hpc, hi]

theorem inv_armSkip (instr : Nat) (s : State)
    (h : instr / 4096 = 3 ∨ instr / 4096 = 4 ∨ instr / 4096 = 5 ∨ instr / 4096 = 9)
    (hpc2 : s.pc + 2 ≤ 0xFFF) (hi : s.i ≤ 0xFFF) :
    invOut (execInstr instr s) := by
  rcases h with h | h | h | h <;>
    (simp only [execInstr, h]; norm_num; split_ifs <;> simp [invOut, hi] <;> omega)

theorem inv_armE (instr : Nat) (s : State) (h : instr / 4096 = 0xE)
    (hpc2 : s.pc + 2 ≤ 0xFFF) (hi : s.i ≤ 0xFFF) :
    invOut (execInstr instr s) := by
  simp only [execInstr, h]
  norm_num
  split_ifs <;> simp [invOut, hi] <;> omega

set_option maxHeartbeats 1600000 in
theorem inv_armF (instr : Nat) (s : State) (h : instr / 4096 = 0xF)
    (hF : instr % 256 ≠ 0x55 ∧ instr % 256 ≠ 0x65)
    (hpc : s.pc ≤ 0xFFF) (hi : s.i ≤ 0xFFF) :
    invOut (execInstr instr s) := by
  simp only [execInstr, h, memWrite]
  norm_num
  by_cases h07 : instr % 256 = 0x07
  · simp [h07, invOut, hpc, hi]
  by_cases h0A : instr % 256 = 0x0A
  · simp [h07, h0A, invOut, hpc, hi]
  by_cases h15 : instr % 256 = 0x15
  · simp [h07, h0A, h15, invOut, hpc, hi]
  by_cases h18 : instr % 256 = 0x18
  · simp [h07, h0A, h15, h18, invOut, hpc, hi]
  by_cases h1E : instr % 256 = 0x1E
  · simp [h07, h0A, h15, h18, h1E, invOut, hpc, hi]
    omega
  by_cases h29 : instr % 256 = 0x29
  · simp [h07, h0A, h15, h18, h1E, h29, invOut, hpc, hi, CHARACTER_SPRITE_OFFSET]
    omega
  by_cases h33 : instr % 256 = 0x33
  · simp only [h07, h0A, h15, h18, h1E, h29, h33, if_true, if_false, if_neg, if_pos]
    norm_num [h07, h0A, h15, h18, h1E, h29]
    by_cases hw0 : s.i < MEMORY_SIZE
    · rw [if_pos hw0]
      dsimp only
      by_cases hw1 : s.i + 1 < MEMORY_SIZE
      · rw [if_pos hw1]
        dsimp only
        by_cases hw2 : s.i + 2 < MEMORY_SIZE
        · rw [if_pos hw2]
          dsimp only [invOut]
          exact ⟨hpc, hi⟩
        · rw [if_neg hw2]
          dsimp only [invOut]
      · rw [if_neg hw1]
        dsimp only [invOut]
    · rw [if_neg hw0]
      dsimp only [invOut]
  by_cases hFF : instr % 256 = 0xFF
  · simp [h07, h0A, h15, h18, h1E, h29, h33, hF.1, hF.2, hFF, invOut, hpc, hi]
  · simp [h07, h0A, h15, h18, h1E, h29, h33, hF.1, hF.2, hFF, invOut, hpc, hi]

theorem inv_armSimple (instr : Nat) (s : State)
    (h : instr / 4096 = 1 ∨ instr / 4096 = 2 ∨ instr / 4096 = 6 ∨ instr / 4096 = 7 ∨
         instr / 4096 = 0xA ∨ instr / 4096 = 0xC ∨ instr / 4096 = 0xD)
    (hpc : s.pc ≤ 0xFFF) (hi : s.i ≤ 0xFFF) :
    invOut (execInstr instr s) := by
  rcases h with h | h | h | h | h | h | h <;>
    (simp only [execInstr, h]; norm_num; simp [invOut, hpc, hi]) <;> omega

/-- Write characterisation of the FX55 loop: starting at loop counter `k`
with `fuel` iterations left, the iteration `j` stores `v (k + j)` at address
`i + k + j * (x + 2)` (because `i` grows by `x + 1` inside the loop), and
`i` ends `fuel * (x + 1)` higher. -/
theorem fx55_loop_spec (x : Nat) : ∀ (fuel k : Nat) (s : State),
    (∀ j, j < fuel → s.i + k + j * (x + 2) < MEMORY_SIZE) →
    ∃ s', fx55_loop x k fuel s = some s' ∧
      s'.i = s.i + fuel * (x + 1) ∧
      s'.pc = s.pc ∧ s'.v = s.v ∧ s'.stack = s.stack ∧
      (∀ j, j < fuel → s'.memory (s.i + k + j * (x + 2)) = s.v (k + j)) ∧
      (∀ a, (∀ j, j < fuel → a ≠ s.i + k + j * (x + 2)) → s'.memory a = s.memory a) := by
  intro fuel
  induction fuel with
  | zero =>
    intro k s _
    exact ⟨s, rfl, by simp, rfl, rfl, rfl, fun j hj => absurd hj (by omega),
      fun a _ => rfl⟩
  | succ fuel ih =>
    intro k s hrange
    have hb : s.i + k < MEMORY_SIZE := by
      have := hrange 0 (by omega)
      omega
    set s2 : State :=
      { s with memory := updf s.memory (s.i + k) (s.v k), i := s.i + (x + 1) } with hs2
    have hstep : fx55_loop x k (fuel + 1) s = fx55_loop x (k + 1) fuel s2 := by
      simp [fx55_loop, hb, hs2]
    have haddr : ∀ j, s2.i + (k + 1) + j * (x + 2) = s.i + k + (j + 1) * (x + 2) := by
      intro j
      simp only [hs2]
      ring
    obtain ⟨s', hrun, hi', hpc', hv', hstk', hwr, hfr⟩ :=
      ih (k + 1) s2 (fun j hj => by
        rw [haddr j]
        exact hrange (j + 1) (by omega))
    refine ⟨s', by rw [hstep]; exact hrun, ?_, ?_, ?_, ?_, ?_, ?_⟩
    · rw [hi']
      simp only [hs2]
      ring
    · exact hpc'
    · exact hv'
    · exact hstk'
    · intro j hj
      rcases j with _ | j'
      · have hne : ∀ j, j < fuel → s.i + k ≠ s2.i + (k + 1) + j * (x + 2) := by
          intro j hj
          rw [haddr j]
          have h1 : 1 * (x + 2) ≤ (j + 1) * (x + 2) := Nat.mul_le_mul_right _ (by omega)
          omega
        have hmem := hfr (s.i + k) hne
        simp only [Nat.zero_mul, Nat.add_zero]
        rw [hmem]
        simp only [hs2, updf]
        simp
      · have := hwr j' (by omega)
        rw [haddr j'] at this
        rw [this]
        simp only [hs2]
        congr 1
        omega
    · intro a ha
      have h0 : a ≠ s.i + k := by
        have := ha 0 (by omega)
        omega
      have := hfr a (fun j hj => by
        rw [haddr j]
        exact ha (j + 1) (by omega))
      rw [this]
      simp only [hs2, updf]
      simp [h0]

/-- Read characterisation of the FX65 loop: iteration `j` loads
`v (k + j)` from address `i + k + j * (x + 2)` of the (unchanged) memory. -/
theorem fx65_loop_spec (x : Nat) : ∀ (fuel k : Nat) (s : State),
    (∀ j, j < fuel → s.i + k + j * (x + 2) < MEMORY_SIZE) →
    ∃ s', fx65_loop x k fuel s = some s' ∧
      s'.i = s.i + fuel * (x + 1) ∧
      s'.pc = s.pc ∧ s'.memory = s.memory ∧ s'.stack = s.stack ∧
      (∀ j, j < fuel → s'.v (k + j) = s.memory (s.i + k + j * (x + 2))) ∧
      (∀ r, (∀ j, j < fuel → r ≠ k + j) → s'.v r = s.v r) := by
  intro fuel
  induction fuel with
  | zero =>
    intro k s _
    exact ⟨s, rfl, by simp, rfl, rfl, rfl, fun j hj => absurd hj (by omega),
      fun r _ => rfl⟩
  | succ fuel ih =>
    intro k s hrange
    have hb : s.i + k < MEMORY_SIZE := by
      have := hrange 0 (by omega)
      omega
    set s2 : State :=
      { s with v := updf s.v k (s.memory (s.i + k)), i := s.i + (x + 1) } with hs2
    have hstep : fx65_loop x k (fuel + 1) s = fx65_loop x (k + 1) fuel s2 := by
      simp [fx65_loop, hb, hs2]
    have haddr : ∀ j, s2.i + (k + 1) + j * (x + 2) = s.i + k + (j + 1) * (x + 2) := by
      intro j
      simp only [hs2]
      ring
    obtain ⟨s', hrun, hi', hpc', hm', hstk', hrd, hfr⟩ :=
      ih (k + 1) s2 (fun j hj => by
        rw [haddr j]
        exact hrange (j + 1) (by omega))
    refine ⟨s', by rw [hstep]; exact hrun, ?_, ?_, ?_, ?_, ?_, ?_⟩
    · rw [hi']
      simp only [hs2]
      ring
    · exact hpc'
    · exact hm'
    · exact hstk'
    · intro j hj
      rcases j with _ | j'
      · have hne : ∀ j, j < fuel → k ≠ k + 1 + j := by omega
        have hv := hfr k hne
        simp only [Nat.zero_mul, Nat.add_zero]
        rw [hv]
        simp only [hs2, updf]
        simp
      · have := hrd j' (by omega)
        rw [haddr j'] at this
        have harg : k + 1 + j' = k + (j' + 1) := by omega
        rw [harg] at this
        rw [this]
    · intro r hr
      have h0 : r ≠ k := by
        have := hr 0 (by omega)
        omega
      have := hfr r (fun j hj => by
        have := hr (j + 1) (by omega)
        omega)
      rw [this]
      simp only [hs2, updf]
      simp [h0]

/-- The `0xFX55` arm reduces to its loop. -/
theorem execInstr_fx55 (instr : Nat) (s : State)
    (h : instr / 4096 = 0xF) (h55 : instr % 256 = 0x55) :
    execInstr instr s =
      match fx55_loop (instr / 256 % 16) 0 (instr / 256 % 16 + 1) s with
      | some s' => Outcome.ok none s'
      | none => Outcome.panic := by
  simp only [execInstr, h, h55]
  norm_num

/-- The `0xFX65` arm reduces to its loop. -/
theorem execInstr_fx65 (instr : Nat) (s : State)
    (h : instr / 4096 = 0xF) (h65 : instr % 256 = 0x65) :
    execInstr instr s =
      match fx65_loop (instr / 256 % 16) 0 (instr / 256 % 16 + 1) s with
      | some s' => Outcome.ok none s'
      | none => Outcome.panic := by
  simp only [execInstr, h, h65]
  norm_num

/-- A byte masked twice by the same mask is unchanged by the second mask. -/
theorem land_mask_idem (r nn : Nat) : (r &&& nn) &&& nn = r &&& nn := by
  rw [Nat.land_assoc]
  congr 1
  exact Nat.eq_of_testBit_eq (fun i => by simp [Nat.testBit_land])

/-- The `0xCXNN` arm. -/
theorem execInstr_cxnn (instr : Nat) (s : State) (h : instr / 4096 = 0xC) :
    execInstr instr s =
      Outcome.ok none
        { s with v := updf s.v (instr / 256 % 16)
                        ((s.pc + s.i + regSum s) % 256 &&& instr % 256) } := by
  simp only [execInstr, h]
  norm_num

/-- The `0x8XY4` arm: wrapped sum into `VX`, then the carry into `VF`. -/
theorem execInstr_8xy4 (instr : Nat) (s : State)
    (h : instr / 4096 = 8) (hl : instr % 16 = 4) :
    execInstr instr s =
      Outcome.ok none
        { s with v := updf (updf s.v (instr / 256 % 16)
                        ((s.v (instr / 256 % 16) + s.v (instr / 16 % 16)) % 256)) 0xF
                      (if 256 ≤ s.v (instr / 256 % 16) + s.v (instr / 16 % 16)
                       then 1 else 0) } := by
  simp only [execInstr, h, hl]
  norm_num

/-- The `0x8XY5` arm: wrapped difference into `VX`, then the borrow flag. -/
theorem execInstr_8xy5 (instr : Nat) (s : State)
    (h : instr / 4096 = 8) (hl : instr % 16 = 5) :
    execInstr instr s =
      Outcome.ok none
        { s with v := updf (updf s.v (instr / 256 % 16)
                        ((256 + s.v (instr / 256 % 16) - s.v (instr / 16 % 16)) % 256)) 0xF
                      (if s.v (instr / 256 % 16) < s.v (instr / 16 % 16)
                       then 0 else 1) } := by
  simp only [execInstr, h, hl]
  norm_num

/-- The `0x8XY7` arm: wrapped reverse difference into `VX`, then the borrow
flag. -/
theorem execInstr_8xy7 (instr : Nat) (s : State)
    (h : instr / 4096 = 8) (hl : instr % 16 = 7) :
    execInstr instr s =
      Outcome.ok none
        { s with v := updf (updf s.v (instr / 256 % 16)
                        ((256 + s.v (instr / 16 % 16) - s.v (instr / 256 % 16)) % 256)) 0xF
                      (if s.v (instr / 16 % 16) < s.v (instr / 256 % 16)
                       then 0 else 1) } := by
  simp only [execInstr, h, hl]
  norm_num

theorem inv_armOther (instr : Nat) (s : State)
    (h0 : instr / 4096 ≠ 0) (h1 : instr / 4096 ≠ 1) (h2 : instr / 4096 ≠ 2)
    (h3 : instr / 4096 ≠ 3) (h4 : instr / 4096 ≠ 4) (h5 : instr / 4096 ≠ 5)
    (h6 : instr / 4096 ≠ 6) (h7 : instr / 4096 ≠ 7) (h8 : instr / 4096 ≠ 8)
    (h9 : instr / 4096 ≠ 9) (hA : instr / 4096 ≠ 0xA) (hB : instr / 4096 ≠ 0xB)
    (hC : instr / 4096 ≠ 0xC) (hD : instr / 4096 ≠ 0xD) (hE : instr / 4096 ≠ 0xE)
    (hF : instr / 4096 ≠ 0xF)
    (hpc : s.pc ≤ 0xFFF) (hi : s.i ≤ 0xFFF) :
    invOut (execInstr instr s) := by
  simp [execInstr, h0, h1, h2, h3, h4, h5, h6, h7, h8, h9, hA, hB, hC, hD, hE, hF,
    invOut, hpc, hi]

/-! The claims. -/

/-- Claim C1 (code bug evaluation): loading the two-byte ROM `60 05` through
the `TryFrom` constructor panics, because the source copies
`buffer[0x200..n]` into `memory[0x200..n]` and the slice range `0x200..2`
is invalid; the claimed behaviour (copy the ROM verbatim to `0x200..0x202`
and succeed, since it fits easily) does not happen. -/
theorem c1_rom_load_slice_panics : state_try_from [0x60, 0x05] = none := rfl

/-- Claim C2 (code bug evaluation): `decode_and_execute` on a state whose
next instruction is `0xD000` (a DXYN sprite draw) panics, because
`draw_sprite` is `todo!()` in the source — contradicting the claim that
every one of the 65536 instruction values is handled by
continue/halt/stack-error only. -/
theorem c2_dxyn_draw_sprite_panics : decode_and_execute dxynState = Outcome.panic := rfl

/-- Claim C3 counterexample: with twelve return addresses already on the
stack, executing `0x2222` (CALL 0x222) does not fail with a stack-overflow
error — it succeeds and pushes a thirteenth entry, because the depth check
is commented out in the source. -/
theorem c3_full_stack_call_does_not_overflow :
    (decode_and_execute fullStackCallState).isErr = false ∧
    (decode_and_execute fullStackCallState).stackLenOf = some 13 := ⟨rfl, rfl⟩

/-- Claim C3 as amended: for every state (regardless of the current stack
depth, including twelve or more entries) whose fetched instruction is a
`2NNN` call, `decode_and_execute` succeeds, pushes the advanced PC onto the
stack and sets `PC = NNN`; no StackOverflow error exists. -/
theorem c3_call_pushes_unconditionally (s : State) (h1 : s.pc + 1 < 4096)
    (h2 : instrOf s / 4096 = 2) :
    decode_and_execute s =
      Outcome.ok none
        { s with pc := instrOf s % 4096, stack := s.stack ++ [(s.pc + 2) % 4096] } := by
  rw [decode_eq s h1, execInstr_call _ _ h2]

/-- Witness for C3: the amended theorem applied to the concrete full-stack
state. -/
theorem c3_call_pushes_unconditionally_witness :
    decode_and_execute fullStackCallState =
      Outcome.ok none
        { fullStackCallState with
            pc := instrOf fullStackCallState % 4096
            stack := fullStackCallState.stack ++ [(fullStackCallState.pc + 2) % 4096] } :=
  c3_call_pushes_unconditionally fullStackCallState (by decide) (by decide)

/-- Claim C4 counterexample: from a state with `PC = 0x200`, `I = 0` (both
in range) whose next instruction is `0xBFFF` with `V0 = 0xFF`, execution
succeeds and leaves `PC = 0x10FE > 0xFFF`: the `BNNN` assignment is not
masked to 12 bits. -/
theorem c4_bnnn_breaks_pc_invariant :
    (decode_and_execute bnnnState).pcOf = some 0x10FE ∧ 0xFFF < 0x10FE :=
  ⟨rfl, by norm_num⟩

/-- Claim C4 as amended: starting from a state with `PC`, `I` and all stored
return addresses in `[0, 0xFFF]`, a non-panicking `decode_and_execute` call
leaves `PC` and `I` in `[0, 0xFFF]` — provided the fetched instruction is
not `BNNN` (unmasked `PC = NNN + V0`), not `FX55`/`FX65` (unmasked in-loop
`I += X + 1`), and, when it is one of the conditional-skip classes
3/4/5/9/E, the skip target `(PC + 2) % 4096 + 2` still fits in 12 bits
(the skip increment `pc += 2` is unmasked in the source). -/
theorem c4_pc_i_invariant_masked_arms (s : State)
    (hpc : s.pc ≤ 0xFFF) (hi : s.i ≤ 0xFFF)
    (hstk : ∀ a ∈ s.stack, a ≤ 0xFFF)
    (hB : instrOf s / 4096 ≠ 0xB)
    (hF : instrOf s / 4096 = 0xF → instrOf s % 256 ≠ 0x55 ∧ instrOf s % 256 ≠ 0x65)
    (hskip : (instrOf s / 4096 = 3 ∨ instrOf s / 4096 = 4 ∨ instrOf s / 4096 = 5 ∨
              instrOf s / 4096 = 9 ∨ instrOf s / 4096 = 0xE) →
             (s.pc + 2) % 4096 + 2 ≤ 0xFFF) :
    invOut (decode_and_execute s) := by
  by_cases hfetch : s.pc + 1 < 4096
  · rw [decode_eq s hfetch]
    have hpc' : ((s.pc + 2) % 4096) ≤ 0xFFF := by omega
    by_cases h0 : instrOf s / 4096 = 0
    · exact inv_arm0 _ _ h0 hpc' hi hstk
    by_cases h1 : instrOf s / 4096 = 1
    · exact inv_armSimple _ _ (Or.inl h1) hpc' hi
    by_cases h2 : instrOf s / 4096 = 2
    · exact inv_armSimple _ _ (Or.inr (Or.inl h2)) hpc' hi
    by_cases h3 : instrOf s / 4096 = 3
    · exact inv_armSkip _ _ (Or.inl h3) (hskip (Or.inl h3)) hi
    by_cases h4 : instrOf s / 4096 = 4
    · exact inv_armSkip _ _ (Or.inr (Or.inl h4)) (hskip (Or.inr (Or.inl h4))) hi
    by_cases h5 : instrOf s / 4096 = 5
    · exact inv_armSkip _ _ (Or.inr (Or.inr (Or.inl h5)))
        (hskip (Or.inr (Or.inr (Or.inl h5)))) hi
    by_cases h6 : instrOf s / 4096 = 6
    · exact inv_armSimple _ _ (Or.inr (Or.inr (Or.inl h6))) hpc' hi
    by_cases h7 : instrOf s / 4096 = 7
    · exact inv_armSimple _ _ (Or.inr (Or.inr (Or.inr (Or.inl h7)))) hpc' hi
    by_cases h8 : instrOf s / 4096 = 8
    · exact inv_arm8 _ _ h8 hpc' hi
    by_cases h9 : instrOf s / 4096 = 9
    · exact inv_armSkip _ _ (Or.inr (Or.inr (Or.inr h9)))
        (hskip (Or.inr (Or.inr (Or.inr (Or.inl h9))))) hi
    by_cases hA : instrOf s / 4096 = 0xA
    · exact inv_armSimple _ _ (Or.inr (Or.inr (Or.inr (Or.inr (Or.inl hA))))) hpc' hi
    by_cases hC : instrOf s / 4096 = 0xC
    · exact inv_armSimple _ _
        (Or.inr (Or.inr (Or.inr (Or.inr (Or.inr (Or.inl hC)))))) hpc' hi
    by_cases hD : instrOf s / 4096 = 0xD
    · exact inv_armSimple _ _
        (Or.inr (Or.inr (Or.inr (Or.inr (Or.inr (Or.inr hD)))))) hpc' hi
    by_cases hE : instrOf s / 4096 = 0xE
    · exact inv_armE _ _ hE (hskip (Or.inr (Or.inr (Or.inr (Or.inr hE))))) hi
    by_cases hFt : instrOf s / 4096 = 0xF
    · exact inv_armF _ _ hFt (hF hFt) hpc' hi
    · exact inv_armOther _ _ h0 h1 h2 h3 h4 h5 h6 h7 h8 h9 hA hB hC hD hE hFt hpc' hi
  · simp [decode_and_execute, fetch, MEMORY_SIZE, hfetch, invOut]

/-- Witness for C4: the amended invariant theorem applied to the all-zero
state (instruction `0x0000`). -/
theorem c4_pc_i_invariant_masked_arms_witness :
    invOut (decode_and_execute nopState) :=
  c4_pc_i_invariant_masked_arms nopState (by decide) (by decide) (by decide)
    (by decide) (by decide) (by decide)

set_option maxRecDepth 10000 in
/-- Claim C5 (code bug evaluation): after `State::new`, the addresses
0x04B–0x04F hold the trap byte 0xFF instead of the glyph bytes — the
trap-fill loop starts at 0x040 instead of 0x050 and overwrites the tail of
the 80-byte character table (the claim expects, e.g., `memory[0x4B] = 0xF0`,
the first row of glyph F, as the flattened character map shows). -/
theorem c5_trap_fill_overwrites_sprite_table :
    State.new.memory 0x4B = 0xFF ∧ State.new.memory 0x4C = 0xFF ∧
    State.new.memory 0x4D = 0xFF ∧ State.new.memory 0x4E = 0xFF ∧
    State.new.memory 0x4F = 0xFF ∧ charmap.flatten.getD 0x4B 0 = 0xF0 :=
  ⟨rfl, rfl, rfl, rfl, rfl, rfl⟩

/-- Claim C6 counterexample: executing `0xF155` (store V0..V1) with
`I = 0x300` and `V1 = 0xBB` leaves `memory[0x301] = 0x00` — not `V1` as the
claim requires — and `V1` instead lands at `0x303`. -/
theorem c6_fx55_not_consecutive :
    (decode_and_execute fx55State).memAt 0x301 = some 0x00 ∧
    fx55State.v 1 = 0xBB ∧
    (decode_and_execute fx55State).memAt 0x303 = some 0xBB :=
  ⟨rfl, rfl, rfl⟩

/-- Claim C6 as amended: because the source increments `I` by `X + 1`
inside the loop, `FX55` stores `V[k]` at address `I0 + k * (X + 2)` for
`k = 0..X` (not at consecutive addresses), `FX65` loads `V[k]` from the
same addresses, and both leave `I = I0 + (X + 1)²` — provided every such
address is inside the 4096-byte memory. -/
theorem c6_block_copy_stride_x_plus_2 (s t : State) (x : Nat) (hx : x < 16)
    (hspc : s.pc + 1 < 4096)
    (hsb0 : s.memory s.pc = 0xF0 + x) (hsb1 : s.memory (s.pc + 1) = 0x55)
    (hsr : ∀ k, k ≤ x → s.i + k * (x + 2) < 4096)
    (htpc : t.pc + 1 < 4096)
    (htb0 : t.memory t.pc = 0xF0 + x) (htb1 : t.memory (t.pc + 1) = 0x65)
    (htr : ∀ k, k ≤ x → t.i + k * (x + 2) < 4096) :
    (∃ s', decode_and_execute s = Outcome.ok none s' ∧
       (∀ k, k ≤ x → s'.memory (s.i + k * (x + 2)) = s.v k) ∧
       s'.i = s.i + (x + 1) * (x + 1)) ∧
    (∃ t', decode_and_execute t = Outcome.ok none t' ∧
       (∀ k, k ≤ x → t'.v k = t.memory (t.i + k * (x + 2))) ∧
       t'.i = t.i + (x + 1) * (x + 1)) := by
  constructor
  · have hinstr : instrOf s = 0xF000 + x * 256 + 0x55 := by
      simp [instrOf, hsb0, hsb1]
      ring
    have hdiv : instrOf s / 4096 = 0xF := by omega
    have hmod : instrOf s % 256 = 0x55 := by omega
    have hxf : instrOf s / 256 % 16 = x := by omega
    rw [decode_eq s hspc, execInstr_fx55 _ _ hdiv hmod, hxf]
    obtain ⟨s', hrun, hi', hpc', hv', hstk', hwr, hfr⟩ :=
      fx55_loop_spec x (x + 1) 0 { s with pc := (s.pc + 2) % 4096 }
        (fun j hj => by
          have := hsr j (by omega)
          simpa [MEMORY_SIZE] using this)
    refine ⟨s', by rw [hrun], ?_, ?_⟩
    · intro k hk
      have := hwr k (by omega)
      simpa using this
    · simpa using hi'
  · have hinstr : instrOf t = 0xF000 + x * 256 + 0x65 := by
      simp [instrOf, htb0, htb1]
      ring
    have hdiv : instrOf t / 4096 = 0xF := by omega
    have hmod : instrOf t % 256 = 0x65 := by omega
    have hxf : instrOf t / 256 % 16 = x := by omega
    rw [decode_eq t htpc, execInstr_fx65 _ _ hdiv hmod, hxf]
    obtain ⟨t', hrun, hi', hpc', hm', hstk', hrd, hfr⟩ :=
      fx65_loop_spec x (x + 1) 0 { t with pc := (t.pc + 2) % 4096 }
        (fun j hj => by
          have := htr j (by omega)
          simpa [MEMORY_SIZE] using this)
    refine ⟨t', by rw [hrun], ?_, ?_⟩
    · intro k hk
      have := hrd k (by omega)
      simpa using this
    · simpa using hi'

/-- Witness for C6: the amended theorem applied to the concrete `0xF155`
and `0xF165` states (`X = 1`, `I0 = 0x300`). -/
theorem c6_block_copy_stride_x_plus_2_witness :
    (∃ s', decode_and_execute fx55State = Outcome.ok none s' ∧
       (∀ k, k ≤ 1 → s'.memory (fx55State.i + k * 3) = fx55State.v k) ∧
       s'.i = fx55State.i + 2 * 2) ∧
    (∃ t', decode_and_execute fx65State = Outcome.ok none t' ∧
       (∀ k, k ≤ 1 → t'.v k = fx65State.memory (fx65State.i + k * 3)) ∧
       t'.i = fx65State.i + 2 * 2) :=
  c6_block_copy_stride_x_plus_2 fx55State fx65State 1 (by decide) (by decide)
    (by decide) (by decide) (by decide) (by decide) (by decide) (by decide)
    (by decide)

/-- Claim C7 (confirmed): executing `2NNN` and then the `00EE` located at
`NNN` leaves `PC` at the (masked) address immediately following the call
instruction and restores the call stack exactly. -/
theorem c7_call_ret_roundtrip (s : State) (nnn : Nat) (hnnn2 : nnn + 1 < 4096)
    (hpc : s.pc + 1 < 4096)
    (hb0 : s.memory s.pc = 0x20 + nnn / 256) (hb1 : s.memory (s.pc + 1) = nnn % 256)
    (hr0 : s.memory nnn = 0x00) (hr1 : s.memory (nnn + 1) = 0xEE) :
    ∃ s1 s2, decode_and_execute s = Outcome.ok none s1 ∧
      decode_and_execute s1 = Outcome.ok none s2 ∧
      s2.pc = (s.pc + 2) % 4096 ∧ s2.stack = s.stack := by
  have hnnn : nnn < 4096 := by omega
  have hinstr : instrOf s = 0x2000 + nnn := by
    simp only [instrOf, hb0, hb1]
    omega
  have hdiv : instrOf s / 4096 = 2 := by omega
  have hmod : instrOf s % 4096 = nnn := by omega
  rw [decode_eq s hpc, execInstr_call _ _ hdiv, hmod]
  set s1 : State :=
    { s with pc := nnn, stack := s.stack ++ [(s.pc + 2) % 4096] } with hs1
  have hgoal1 :
      (Outcome.ok none
        { { s with pc := (s.pc + 2) % 4096 } with
            stack := ({ s with pc := (s.pc + 2) % 4096 } : State).stack ++
              [({ s with pc := (s.pc + 2) % 4096 } : State).pc],
            pc := nnn } : Outcome) = Outcome.ok none s1 := rfl
  have h1pc : s1.pc + 1 < 4096 := by
    simp [hs1]
    omega
  have h1instr : instrOf s1 = 0xEE := by
    simp [instrOf, hs1, hr0, hr1]
  have hstep2 :
      decode_and_execute s1 =
        Outcome.ok none { s1 with pc := (s.pc + 2) % 4096, stack := s.stack } := by
    rw [decode_eq s1 h1pc, h1instr, execInstr_ret]
    simp [hs1, List.getLast?_concat, List.dropLast_concat]
  exact ⟨s1, _, hgoal1, hstep2, rfl, rfl⟩

/-- Witness for C7: the round trip on the concrete state with `CALL 0x300`
at `0x200` and `RET` at `0x300`. -/
theorem c7_call_ret_roundtrip_witness :
    ∃ s1 s2, decode_and_execute callRetState = Outcome.ok none s1 ∧
      decode_and_execute s1 = Outcome.ok none s2 ∧
      s2.pc = (callRetState.pc + 2) % 4096 ∧ s2.stack = callRetState.stack :=
  c7_call_ret_roundtrip callRetState 0x300 (by decide) (by decide) (by decide)
    (by decide) (by decide) (by decide)

/-- Claim C8 (confirmed): executing `00EE` with an empty call stack returns
the `Err` value carrying the stack-underflow message, and the resulting
state equals the input state with only the automatic `+2` fetch advance
applied to `PC` — every other field is unchanged. -/
theorem c8_ret_underflow_preserves_state (s : State) (hpc : s.pc + 1 < 4096)
    (hstk : s.stack = [])
    (hb0 : s.memory s.pc = 0x00) (hb1 : s.memory (s.pc + 1) = 0xEE) :
    decode_and_execute s =
      Outcome.err "Stack underflow on RET" { s with pc := (s.pc + 2) % 4096 } := by
  rw [decode_eq s hpc]
  have hi : instrOf s = 0xEE := by
    simp [instrOf, hb0, hb1]
  rw [hi, execInstr_ret]
  have hst : ({ s with pc := (s.pc + 2) % 4096 } : State).stack = [] := hstk
  rw [hst]
  rfl

/-- Witness for C8: the underflow theorem applied to the concrete
empty-stack state with `00EE` at `0x200`. -/
theorem c8_ret_underflow_preserves_state_witness :
    decode_and_execute retUnderflowState =
      Outcome.err "Stack underflow on RET"
        { retUnderflowState with pc := (retUnderflowState.pc + 2) % 4096 } :=
  c8_ret_underflow_preserves_state retUnderflowState (by decide) (by decide)
    (by decide) (by decide)

/-- Claim C9 (confirmed): after executing `CXNN`, the value left in `VX` is
a sub-mask of `NN` — masking it again by `NN` changes nothing — whatever
byte the (placeholder) random source produced. -/
theorem c9_rnd_masked (s : State) (x nn : Nat) (hx : x < 16) (hnn : nn < 256)
    (hpc : s.pc + 1 < 4096)
    (hb0 : s.memory s.pc = 0xC0 + x) (hb1 : s.memory (s.pc + 1) = nn) :
    ∃ s', decode_and_execute s = Outcome.ok none s' ∧ s'.v x &&& nn = s'.v x := by
  have hinstr : instrOf s = 0xC000 + x * 256 + nn := by
    simp [instrOf, hb0, hb1]
    ring
  have hdiv : instrOf s / 4096 = 0xC := by omega
  have hmod : instrOf s % 256 = nn := by omega
  have hxf : instrOf s / 256 % 16 = x := by omega
  rw [decode_eq s hpc, execInstr_cxnn _ _ hdiv, hxf, hmod]
  refine ⟨_, rfl, ?_⟩
  simp only [updf]
  simp [land_mask_idem]

/-- Witness for C9: the masking theorem applied to the concrete `0xC35A`
state. -/
theorem c9_rnd_masked_witness :
    ∃ s', decode_and_execute rndState = Outcome.ok none s' ∧
      s'.v 3 &&& 0x5A = s'.v 3 :=
  c9_rnd_masked rndState 3 0x5A (by decide) (by decide) (by decide) (by decide)
    (by decide)

/-- Claim C10 (confirmed): for `8XY4`, `8XY5` and `8XY7` with destination
`X = 0xF`, the final `VF` is the carry/borrow flag (0 or 1) — the flag
write happens after, and overwrites, the wrapped-result write. -/
theorem c10_flag_overwrites_result (s : State) (y n : Nat) (hy : y < 16)
    (hn : n = 4 ∨ n = 5 ∨ n = 7)
    (hpc : s.pc + 1 < 4096)
    (hb0 : s.memory s.pc = 0x8F) (hb1 : s.memory (s.pc + 1) = y * 16 + n) :
    ∃ s', decode_and_execute s = Outcome.ok none s' ∧
      (s'.v 0xF = 0 ∨ s'.v 0xF = 1) ∧
      s'.v 0xF = (if n = 4 then (if 256 ≤ s.v 0xF + s.v y then 1 else 0)
                  else if n = 5 then (if s.v 0xF < s.v y then 0 else 1)
                  else (if s.v y < s.v 0xF then 0 else 1)) := by
  have hn16 : n < 16 := by omega
  have hinstr : instrOf s = 0x8F00 + y * 16 + n := by
    simp [instrOf, hb0, hb1]
    ring
  have hdiv : instrOf s / 4096 = 8 := by omega
  have hxf : instrOf s / 256 % 16 = 0xF := by omega
  have hyf : instrOf s / 16 % 16 = y := by omega
  have hlf : instrOf s % 16 = n := by omega
  rw [decode_eq s hpc]
  rcases hn with hn | hn | hn
  · rw [execInstr_8xy4 _ _ hdiv (by omega), hxf, hyf]
    refine ⟨_, rfl, ?_, ?_⟩
    · simp [updf]
      omega
    · simp [updf, hn]
  · rw [execInstr_8xy5 _ _ hdiv (by omega), hxf, hyf]
    refine ⟨_, rfl, ?_, ?_⟩
    · simp [updf]
      omega
    · simp [updf, hn]
  · rw [execInstr_8xy7 _ _ hdiv (by omega), hxf, hyf]
    refine ⟨_, rfl, ?_, ?_⟩
    · simp [updf]
      omega
    · simp [updf, hn]

/-- Witness for C10: the flag theorem applied to the concrete `0x8F14` state
(`VF = 0xFF`, `V1 = 0x03`, so the carry flag 1 overwrites the wrapped sum
2). -/
theorem c10_flag_overwrites_result_witness :
    ∃ s', decode_and_execute addToFlagState = Outcome.ok none s' ∧
      (s'.v 0xF = 0 ∨ s'.v 0xF = 1) ∧
      s'.v 0xF = (if 4 = 4 then
                    (if 256 ≤ addToFlagState.v 0xF + addToFlagState.v 1 then 1 else 0)
                  else if 4 = 5 then
                    (if addToFlagState.v 0xF < addToFlagState.v 1 then 0 else 1)
                  else (if addToFlagState.v 1 < addToFlagState.v 0xF then 0 else 1)) :=
  c10_flag_overwrites_result addToFlagState 1 4 (by decide) (by decide) (by decide)
    (by decide) (by decide)

end Chip8
